import Mathlib

/-!
Verification development for the Hikari repository (TypeScript SDK and
database artifacts). Numbers of the host language (IEEE doubles) are
modelled as rationals; TypeScript `number | null` becomes `Option ℚ`;
fallible steps return `Except`. JavaScript `Map` objects are modelled as
association lists with insert-or-replace update preserving insertion
order, which matches `Map.set` / `Map.get` semantics.
-/

namespace Hikari

/-! ## Association-list model of a JavaScript Map -/

/-- Semantics of `Map.set k v`: replace the binding of `k` in place if present,
otherwise append the new binding at the end (JS maps preserve insertion
order). -/
def mapSet {V : Type} : List (String × V) → String → V → List (String × V)
  | [], k, v => [(k, v)]
  | (k', v') :: rest, k, v =>
      if k' = k then (k, v) :: rest else (k', v') :: mapSet rest k v

/-- Semantics of `Map.get k`: the value of the first (hence, for duplicate-free
maps, the only) binding of `k`. -/
def lookupKey {V : Type} : List (String × V) → String → Option V
  | [], _ => none
  | (k', v') :: rest, k => if k' = k then some v' else lookupKey rest k

/-- Fold a list of entries into a map with `Map.set`, left to right. -/
def setEntries {V : Type} (t : List (String × V)) (es : List (String × V)) :
    List (String × V) :=
  es.foldl (fun acc e => mapSet acc e.1 e.2) t

/-! ## Pricing model (src/sdk/typescript/src/pricing.ts) -/

/-- Per-token pricing entry (`ModelPricing` in pricing.ts). -/
structure ModelPricing where
  inputCostPerToken : ℚ
  outputCostPerToken : ℚ
deriving DecidableEq, Repr

/-- Result of `computeCost` (`CostResult` in pricing.ts); any component may
be null. -/
structure CostResult where
  inputCost : Option ℚ
  outputCost : Option ℚ
  totalCost : Option ℚ
deriving DecidableEq, Repr

/-- The bundled default pricing table (`DEFAULT_PRICING` in pricing.ts),
keyed by `{provider}/{model}`, in source order. -/
def DEFAULT_PRICING : List (String × ModelPricing) :=
  [ ("openai/gpt-4o", ⟨0.0000025, 0.00001⟩)
  , ("openai/gpt-4o-mini", ⟨0.00000015, 0.0000006⟩)
  , ("anthropic/claude-3-5-sonnet-20241022", ⟨0.000003, 0.000015⟩)
  , ("anthropic/claude-3-haiku-20240307", ⟨0.00000025, 0.00000125⟩)
  , ("google/gemini-1.5-pro", ⟨0.00000125, 0.000005⟩)
  , ("google/gemini-1.5-flash", ⟨0.000000075, 0.0000003⟩) ]

/-- The `PricingModel` class: its only state is the private `table` map. -/
structure PricingModel where
  table : List (String × ModelPricing)
deriving DecidableEq, Repr

/-- The `PricingModel` constructor: start from an empty map, `set` every
bundled default entry, then `set` every override entry (overrides given as
`Object.entries` of the overrides record, so keys are duplicate-free). An
absent overrides argument is the empty list. -/
def mkPricingModel (overrides : List (String × ModelPricing)) : PricingModel :=
  ⟨setEntries (setEntries [] DEFAULT_PRICING) overrides⟩

/-- Method `PricingModel.get`: look up the key `{provider}/{model}`, null when
absent (`this.table.get(key) ?? null`). -/
def PricingModel.get (pm : PricingModel) (provider model : String) :
    Option ModelPricing :=
  lookupKey pm.table (provider ++ "/" ++ model)

/-- One component branch of `computeCost`:
`if (pricing !== null && tokens !== null) cost = per(pricing) * tokens`. -/
def componentCost (pricing : Option ModelPricing) (tokens : Option ℚ)
    (per : ModelPricing → ℚ) : Option ℚ :=
  match pricing, tokens with
  | some p, some t => some (per p * t)
  | _, _ => none

/-- The total branch of `computeCost`:
`if (inputCost !== null && outputCost !== null) totalCost = inputCost + outputCost`. -/
def totalOf (a b : Option ℚ) : Option ℚ :=
  match a, b with
  | some x, some y => some (x + y)
  | _, _ => none

/-- Method `PricingModel.computeCost`: each cost starts null; `inputCost` is set
when pricing and `inputTokens` are both non-null, `outputCost` when pricing
and `outputTokens` are both non-null, and `totalCost` when both costs are
non-null. -/
def PricingModel.computeCost (pm : PricingModel) (provider model : String)
    (inputTokens outputTokens : Option ℚ) : CostResult :=
  let pricing := pm.get provider model
  let inputCost := componentCost pricing inputTokens (fun p => p.inputCostPerToken)
  let outputCost := componentCost pricing outputTokens (fun p => p.outputCostPerToken)
  let totalCost := totalOf inputCost outputCost
  ⟨inputCost, outputCost, totalCost⟩

/-- Method `PricingModel.update`: `this.table.set(modelKey, ...)`. -/
def PricingModel.update (pm : PricingModel) (modelKey : String)
    (inputCostPerToken outputCostPerToken : ℚ) : PricingModel :=
  ⟨mapSet pm.table modelKey ⟨inputCostPerToken, outputCostPerToken⟩⟩

/-! ## OTel spans and the `hikari.*` attribute vocabulary

Attribute values on an OTel span are JavaScript strings, numbers or
booleans; numbers are modelled as rationals. -/

/-- A span attribute value (string | number | boolean). -/
inductive AttrValue where
  | str (s : String)
  | num (q : ℚ)
  | bool (b : Bool)
deriving DecidableEq, Repr

/-- Attribute name constants of attributes.ts (the `hikari.*` vocabulary,
exported as string constants and used by every provider wrapper). -/
def PIPELINE_ID : String := "hikari.pipeline_id"

def STAGE : String := "hikari.stage"

def MODEL : String := "hikari.model"

def PROVIDER : String := "hikari.provider"

def TOKENS_INPUT : String := "hikari.tokens.input"

def TOKENS_OUTPUT : String := "hikari.tokens.output"

def COST_INPUT : String := "hikari.cost.input"

def COST_OUTPUT : String := "hikari.cost.output"

def COST_TOTAL : String := "hikari.cost.total"

/-- The mutable state of an OTel span as the wrappers use it: its name, its
attribute map, and whether `span.end()` has been called. -/
structure Span where
  name : String
  attrs : List (String × AttrValue)
  ended : Bool
deriving DecidableEq, Repr

/-- The call `span.setAttribute(key, value)`. -/
def setAttr (s : Span) (key : String) (v : AttrValue) : Span :=
  { s with attrs := mapSet s.attrs key v }

/-- The guarded call `if (x !== null) span.setAttribute(key, x)` for an optional value. -/
def setOptAttr (s : Span) (key : String) (v : Option AttrValue) : Span :=
  match v with
  | some v => setAttr s key v
  | none => s

/-- Read an attribute back from a span (none when never set). -/
def findAttr (s : Span) (key : String) : Option AttrValue :=
  lookupKey s.attrs key

/-! ## Provider wrappers (providers/openai.ts, providers/google.ts, and the
anthropic provider file)

The three `makeWrapper` functions share one control skeleton: start a span;
`await` the original method inside a try/catch; on success run an inner
try/catch that extracts tokens, computes costs and sets attributes
(swallowing any error it throws), end the span, and return the original
response; on rejection end the span and rethrow the original error. -/

/-- The attribute block shared verbatim by the three provider wrappers:
set `hikari.pipeline_id` when the context value is truthy (JavaScript
truthiness: the empty string is falsy), always set stage, model and
provider, set token attributes when the counts are non-null, compute costs
and set each `hikari.cost.*` attribute only when that cost is non-null. -/
def wrapperAttrStep (providerName : String) (pricing : PricingModel)
    (pipelineId stageCtx : Option String) (spanName : String)
    (inputTokens outputTokens : Option ℚ) (model : String) (span : Span) :
    Span :=
  let stage := stageCtx.getD spanName
  let s := setOptAttr span PIPELINE_ID
    ((pipelineId.filter (fun p => p ≠ "")).map AttrValue.str)
  let s := setAttr s STAGE (AttrValue.str stage)
  let s := setAttr s MODEL (AttrValue.str model)
  let s := setAttr s PROVIDER (AttrValue.str providerName)
  let s := setOptAttr s TOKENS_INPUT (inputTokens.map AttrValue.num)
  let s := setOptAttr s TOKENS_OUTPUT (outputTokens.map AttrValue.num)
  let c := pricing.computeCost providerName model inputTokens outputTokens
  let s := setOptAttr s COST_INPUT (c.inputCost.map AttrValue.num)
  let s := setOptAttr s COST_OUTPUT (c.outputCost.map AttrValue.num)
  let s := setOptAttr s COST_TOTAL (c.totalCost.map AttrValue.num)
  s

/-- Control skeleton of `makeWrapper`. `original` is the outcome of the
wrapped client method (`Except.error` models a rejected promise). The
attribute step returns the span as mutated so far together with a flag
telling whether it threw; the wrapper swallows that flag (the inner catch
only logs). The wrapper ends the span on both paths and propagates the
original outcome unchanged. -/
def wrappedCall {ε ρ : Type} (attrStep : ρ → Span → Span × Bool)
    (spanName : String) (original : Except ε ρ) : Except ε ρ × Span :=
  let span : Span := { name := spanName, attrs := [], ended := false }
  match original with
  | Except.error e => (Except.error e, { span with ended := true })
  | Except.ok r =>
      let (s, _threw) := attrStep r span
      (Except.ok r, { s with ended := true })

/-- OpenAI response shape used by the wrapper (`usage.prompt_tokens`,
`usage.completion_tokens`, `model`). -/
structure OpenAIUsage where
  prompt_tokens : Option ℚ
  completion_tokens : Option ℚ
deriving DecidableEq, Repr

structure OpenAIResponse where
  usage : Option OpenAIUsage
  model : Option String
deriving DecidableEq, Repr

/-- openai.ts `extractTokens`. -/
def openaiExtractTokens (r : OpenAIResponse) : Option ℚ × Option ℚ :=
  match r.usage with
  | none => (none, none)
  | some u => (u.prompt_tokens, u.completion_tokens)

/-- openai.ts `extractModel`: `response.model ?? kwargs.model ?? "unknown"`. -/
def openaiExtractModel (r : OpenAIResponse) (kwargsModel : Option String) :
    String :=
  (r.model.orElse (fun _ => kwargsModel)).getD "unknown"

/-- The openai.ts wrapper applied to one call outcome. The attribute step
never throws in this model (cost arithmetic on rationals is total), so its
flag is false. -/
def openaiWrapper {ε : Type} (pricing : PricingModel)
    (pipelineId stageCtx kwargsModel : Option String)
    (original : Except ε OpenAIResponse) : Except ε OpenAIResponse × Span :=
  wrappedCall
    (fun r span =>
      (wrapperAttrStep "openai" pricing pipelineId stageCtx
        "openai.chat.completions.create"
        (openaiExtractTokens r).1 (openaiExtractTokens r).2
        (openaiExtractModel r kwargsModel) span, false))
    "openai.chat.completions.create" original

/-- Anthropic response shape (`usage.input_tokens`, `usage.output_tokens`,
`model`). -/
structure AnthropicUsage where
  input_tokens : Option ℚ
  output_tokens : Option ℚ
deriving DecidableEq, Repr

structure AnthropicResponse where
  usage : Option AnthropicUsage
  model : Option String
deriving DecidableEq, Repr

/-- Anthropic `extractTokens`. -/
def anthropicExtractTokens (r : AnthropicResponse) : Option ℚ × Option ℚ :=
  match r.usage with
  | none => (none, none)
  | some u => (u.input_tokens, u.output_tokens)

/-- Anthropic `extractModel`. -/
def anthropicExtractModel (r : AnthropicResponse) (kwargsModel : Option String) :
    String :=
  (r.model.orElse (fun _ => kwargsModel)).getD "unknown"

/-- The anthropic wrapper applied to one call outcome. -/
def anthropicWrapper {ε : Type} (pricing : PricingModel)
    (pipelineId stageCtx kwargsModel : Option String)
    (original : Except ε AnthropicResponse) :
    Except ε AnthropicResponse × Span :=
  wrappedCall
    (fun r span =>
      (wrapperAttrStep "anthropic" pricing pipelineId stageCtx
        "anthropic.messages.create"
        (anthropicExtractTokens r).1 (anthropicExtractTokens r).2
        (anthropicExtractModel r kwargsModel) span, false))
    "anthropic.messages.create" original

/-- Google response shape (`usageMetadata.promptTokenCount`,
`usageMetadata.candidatesTokenCount`). -/
structure GoogleUsageMetadata where
  promptTokenCount : Option ℚ
  candidatesTokenCount : Option ℚ
deriving DecidableEq, Repr

structure GoogleResponse where
  usageMetadata : Option GoogleUsageMetadata
deriving DecidableEq, Repr

/-- google.ts `extractTokens`. -/
def googleExtractTokens (r : GoogleResponse) : Option ℚ × Option ℚ :=
  match r.usageMetadata with
  | none => (none, none)
  | some u => (u.promptTokenCount, u.candidatesTokenCount)

/-- The google.ts wrapper applied to one call outcome; the model name comes
from the wrapped `GenerativeModel` instance, not the response. -/
def googleWrapper {ε : Type} (pricing : PricingModel)
    (pipelineId stageCtx : Option String) (modelName : String)
    (original : Except ε GoogleResponse) : Except ε GoogleResponse × Span :=
  wrappedCall
    (fun r span =>
      (wrapperAttrStep "google" pricing pipelineId stageCtx
        "google.generativeai.generate_content"
        (googleExtractTokens r).1 (googleExtractTokens r).2
        modelName span, false))
    "google.generativeai.generate_content" original

/-! ## Exporter (src/sdk/typescript/src/exporter.ts) -/

/-- OTLP attribute value as serialized by `spanToOtlp`. The decimal string
of `intValue` (produced by `String(value)` in the source) is modelled by a
sign flag and the little-endian base-10 digit list of its absolute value. -/
inductive OtlpValue where
  | intValue (neg : Bool) (digits : List ℕ)
  | doubleValue (q : ℚ)
  | stringValue (s : String)
  | boolValue (b : Bool)
deriving DecidableEq, Repr

/-- spanToOtlp value encoding: an integer-valued number (`Number.isInteger`,
i.e. denominator 1) becomes `intValue` with its decimal string, any other
number becomes `doubleValue`, a string becomes `stringValue`, a boolean
becomes `boolValue`. -/
def encodeAttrValue : AttrValue → OtlpValue
  | AttrValue.num q =>
      if q.den = 1 then
        OtlpValue.intValue (decide (q.num < 0)) (Nat.digits 10 q.num.natAbs)
      else OtlpValue.doubleValue q
  | AttrValue.str s => OtlpValue.stringValue s
  | AttrValue.bool b => OtlpValue.boolValue b

/-- Modelled from the spec: the collector-side value coercion (the
collector sources are not in the tree). Per docs/spec.md section 4.1 the
consumer accepts integers arriving as decimal strings and doubles arriving
as integer-valued numbers, preserving both as (rational-modelled) floating
point. -/
def decodeAttrValue : OtlpValue → Option AttrValue
  | OtlpValue.intValue neg ds =>
      let n : ℤ := (Nat.ofDigits 10 ds : ℕ)
      some (AttrValue.num (((if neg then -n else n) : ℤ) : ℚ))
  | OtlpValue.doubleValue q => some (AttrValue.num q)
  | OtlpValue.stringValue s => some (AttrValue.str s)
  | OtlpValue.boolValue b => some (AttrValue.bool b)

/-- The fields of an OTel `ReadableSpan` used by `spanToOtlp`; `startTime`
and `endTime` are hrtime pairs `[seconds, nanoseconds]`. -/
structure ReadableSpan where
  traceId : String
  spanId : String
  name : String
  startTime : ℤ × ℤ
  endTime : ℤ × ℤ
  attributes : List (String × AttrValue)
deriving DecidableEq, Repr

/-- OTLP-JSON span produced by `spanToOtlp`. The two `...UnixNano` decimal
strings are modelled by their integer values. -/
structure OtlpSpan where
  traceId : String
  spanId : String
  name : String
  startTimeUnixNano : ℤ
  endTimeUnixNano : ℤ
  attributes : List (String × OtlpValue)
deriving DecidableEq, Repr

/-- exporter.ts `spanToOtlp`. -/
def spanToOtlp (span : ReadableSpan) : OtlpSpan :=
  { traceId := span.traceId
  , spanId := span.spanId
  , name := span.name
  , startTimeUnixNano := span.startTime.1 * 1000000000 + span.startTime.2
  , endTimeUnixNano := span.endTime.1 * 1000000000 + span.endTime.2
  , attributes := span.attributes.map (fun kv => (kv.1, encodeAttrValue kv.2)) }

/-- Nested OTLP payload shape built by `flushBatch`. -/
structure ScopeSpans where
  spans : List OtlpSpan
deriving DecidableEq, Repr

structure ResourceSpans where
  scopeSpans : List ScopeSpans
deriving DecidableEq, Repr

structure OtlpPayload where
  resourceSpans : List ResourceSpans
deriving DecidableEq, Repr

/-- The mutable state of a `HikariSpanExporter` (all class fields except the
timer handle, which only schedules flushes). -/
structure ExporterState where
  endpoint : String
  maxQueueSize : ℕ
  batchSize : ℕ
  flushIntervalMs : ℕ
  queue : List ReadableSpan
  shutdownFlag : Bool
deriving DecidableEq, Repr

inductive ExportResultCode where
  | SUCCESS
  | FAILED
deriving DecidableEq, Repr

/-- The per-span body of the `export` loop:
`if (queue.length >= maxQueueSize) queue.shift(); queue.push(span)`. -/
def enqueueSpan (maxQueueSize : ℕ) (q : List ReadableSpan)
    (sp : ReadableSpan) : List ReadableSpan :=
  (if maxQueueSize ≤ q.length then q.tail else q) ++ [sp]

/-- Method `HikariSpanExporter.export`: when shut down, report success and leave
the state alone; otherwise enqueue every incoming span in order with
drop-oldest overflow, and report success via the result callback. (The
batch-size-triggered flush the source then fires asynchronously is modelled
by `flushBatch` as a separate step, since it runs after `export` returns.) -/
def exportSpans (s : ExporterState) (spans : List ReadableSpan) :
    ExporterState × ExportResultCode :=
  if s.shutdownFlag then (s, ExportResultCode.SUCCESS)
  else
    ({ s with queue := spans.foldl (enqueueSpan s.maxQueueSize) s.queue },
      ExportResultCode.SUCCESS)

/-- Method `HikariSpanExporter.flushBatch`: return immediately on an empty queue;
otherwise splice the first `batchSize` spans out of the queue, and if that
batch is non-empty serialize it in order into the nested OTLP payload. -/
def flushBatch (s : ExporterState) : ExporterState × Option OtlpPayload :=
  if s.queue.isEmpty then (s, none)
  else
    let batch := s.queue.take s.batchSize
    let rest := s.queue.drop s.batchSize
    if batch.isEmpty then ({ s with queue := rest }, none)
    else
      ({ s with queue := rest },
        some ⟨[⟨[⟨batch.map spanToOtlp⟩]⟩]⟩)

/-! ## Database artifacts (migrations, src/unnamed/part_001)

The spans hypertable is modelled as a list of rows; SQL aggregate
functions ignore NULL inputs and return NULL when no non-null input
exists. -/

/-- One row of the `spans` hypertable (migration 001). -/
structure SpanRow where
  time : ℤ
  trace_id : String
  span_id : String
  span_name : String
  pipeline_id : String
  stage : String
  model : String
  provider : String
  tokens_input : Option ℤ
  tokens_output : Option ℤ
  cost_input : Option ℚ
  cost_output : Option ℚ
  cost_total : Option ℚ
  duration_ms : ℚ
deriving DecidableEq, Repr

/-- SQL `SUM` over a column: NULL inputs are ignored; the result is NULL
when every input is NULL (or the group is empty, which cannot happen for
`GROUP BY` groups). -/
def sqlSum {α : Type} [AddCommMonoid α] (vs : List (Option α)) : Option α :=
  if vs.all Option.isNone then none else some (vs.filterMap id).sum

/-- SQL `AVG` over a column: sum of the non-null inputs divided by their
count; NULL when every input is NULL. -/
def sqlAvg (vs : List (Option ℚ)) : Option ℚ :=
  let present := vs.filterMap id
  if present.isEmpty then none else some (present.sum / present.length)

/-- SQL `time_bucket(width, time)`: align the instant to the start of its
width-sized bucket (bucket origin abstracted). -/
def timeBucket (width t : ℤ) : ℤ :=
  width * (t / width)

/-- The `GROUP BY` key of the three aggregate views:
`(bucket, pipeline_id, stage, model, provider)`. -/
structure AggKey where
  bucket : ℤ
  pipeline_id : String
  stage : String
  model : String
  provider : String
deriving DecidableEq, Repr

def rowKey (width : ℤ) (r : SpanRow) : AggKey :=
  ⟨timeBucket width r.time, r.pipeline_id, r.stage, r.model, r.provider⟩

/-- One output row of a continuous aggregate view. -/
structure AggRow where
  key : AggKey
  total_cost : Option ℚ
  total_tokens_input : Option ℤ
  total_tokens_output : Option ℤ
  span_count : ℕ
  avg_cost_per_span : Option ℚ
deriving DecidableEq, Repr

/-- The shared shape of the three continuous aggregates (migration 002):
`SELECT time_bucket(width, time), ...aggregates... FROM spans WHERE
cost_total IS NOT NULL GROUP BY bucket, pipeline_id, stage, model,
provider`, with `SUM(cost_total)`, `SUM(tokens_input)`,
`SUM(tokens_output)`, `COUNT(*)` and `AVG(cost_total)` per group. Output
rows appear in order of first occurrence of their group key. -/
def cost_view (width : ℤ) (rows : List SpanRow) : List AggRow :=
  let filtered := rows.filter (fun r => r.cost_total.isSome)
  ((filtered.map (rowKey width)).dedup).map (fun k =>
    let g := filtered.filter (fun r => decide (rowKey width r = k))
    { key := k
    , total_cost := sqlSum (g.map (fun r => r.cost_total))
    , total_tokens_input := sqlSum (g.map (fun r => r.tokens_input))
    , total_tokens_output := sqlSum (g.map (fun r => r.tokens_output))
    , span_count := g.length
    , avg_cost_per_span := sqlAvg (g.map (fun r => r.cost_total)) })

/-- View `cost_hourly` (1-hour buckets, in seconds). -/
def cost_hourly (rows : List SpanRow) : List AggRow :=
  cost_view 3600 rows

/-- View `cost_daily` (1-day buckets). -/
def cost_daily (rows : List SpanRow) : List AggRow :=
  cost_view 86400 rows

/-- View `cost_weekly` (1-week buckets). -/
def cost_weekly (rows : List SpanRow) : List AggRow :=
  cost_view 604800 rows

end Hikari

namespace Hikari

/-! ## Map lemmas -/

theorem lookupKey_mapSet_self {V : Type} (t : List (String × V)) (k : String)
    (v : V) : lookupKey (mapSet t k v) k = some v := by
  induction t with
  | nil => simp [mapSet, lookupKey]
  | cons e rest ih =>
      by_cases h : e.1 = k
      · simp [mapSet, h, lookupKey]
      · simp [mapSet, h, lookupKey, ih]

theorem lookupKey_mapSet_ne {V : Type} (t : List (String × V))
    {k k' : String} (v : V) (h : k' ≠ k) :
    lookupKey (mapSet t k v) k' = lookupKey t k' := by
  induction t with
  | nil => simp [mapSet, lookupKey, Ne.symm h]
  | cons e rest ih =>
      by_cases he : e.1 = k
      · subst he
        simp [mapSet, lookupKey, Ne.symm h]
      · simp [mapSet, he, lookupKey, ih]

theorem lookupKey_append {V : Type} (l₁ l₂ : List (String × V)) (k : String) :
    lookupKey (l₁ ++ l₂) k = (lookupKey l₁ k).orElse (fun _ => lookupKey l₂ k) := by
  induction l₁ with
  | nil => simp [lookupKey]
  | cons e rest ih =>
      by_cases h : e.1 = k
      · simp [lookupKey, h]
      · simp [lookupKey, h, ih]

theorem lookupKey_setEntries {V : Type} (es : List (String × V)) :
    ∀ (t : List (String × V)) (k : String),
      lookupKey (setEntries t es) k =
        (lookupKey es.reverse k).orElse (fun _ => lookupKey t k) := by
  induction es with
  | nil => intro t k; simp [setEntries, lookupKey]
  | cons e rest ih =>
      intro t k
      have step : setEntries t (e :: rest) = setEntries (mapSet t e.1 e.2) rest := by
        simp [setEntries]
      rw [step, ih]
      rw [List.reverse_cons, lookupKey_append]
      by_cases h : e.1 = k
      · subst h
        cases hr : lookupKey rest.reverse e.1 with
        | none =>
            simp [Option.orElse, lookupKey, lookupKey_mapSet_self]
        | some v =>
            simp [Option.orElse]
      · cases hr : lookupKey rest.reverse k with
        | none =>
            simp [Option.orElse, lookupKey, h, lookupKey_mapSet_ne _ _ (Ne.symm h)]
        | some v =>
            simp [Option.orElse]

theorem lookupKey_eq_none_of_not_mem {V : Type} {t : List (String × V)}
    {k : String} (h : k ∉ t.map Prod.fst) : lookupKey t k = none := by
  induction t with
  | nil => simp [lookupKey]
  | cons e rest ih =>
      simp only [List.map_cons, List.mem_cons] at h
      push_neg at h
      simp [lookupKey, Ne.symm h.1, ih h.2]

theorem lookupKey_reverse_of_nodup {V : Type} {t : List (String × V)}
    (h : (t.map Prod.fst).Nodup) (k : String) :
    lookupKey t.reverse k = lookupKey t k := by
  induction t with
  | nil => rfl
  | cons e rest ih =>
      simp only [List.map_cons, List.nodup_cons] at h
      rw [List.reverse_cons, lookupKey_append]
      by_cases he : e.1 = k
      · subst he
        have hnone : lookupKey rest e.1 = none :=
          lookupKey_eq_none_of_not_mem h.1
        have hnone' : lookupKey rest.reverse e.1 = none := by
          apply lookupKey_eq_none_of_not_mem
          simpa using h.1
        simp [hnone', Option.orElse, lookupKey]
      · rw [ih h.2]
        cases hr : lookupKey rest k with
        | none => simp [Option.orElse, lookupKey, he, hr]
        | some v => simp [Option.orElse, lookupKey, he, hr]

theorem default_pricing_keys_nodup : (DEFAULT_PRICING.map Prod.fst).Nodup := by
  decide

/-! ## Span attribute lemmas -/

theorem findAttr_setAttr_self (s : Span) (k : String) (v : AttrValue) :
    findAttr (setAttr s k v) k = some v :=
  lookupKey_mapSet_self _ _ _

theorem findAttr_setAttr_ne (s : Span) (k k' : String) (v : AttrValue)
    (h : k' ≠ k) : findAttr (setAttr s k v) k' = findAttr s k' :=
  lookupKey_mapSet_ne _ _ h

theorem findAttr_setOptAttr_self (s : Span) (k : String) (ov : Option AttrValue) :
    findAttr (setOptAttr s k ov) k =
      Option.orElse ov (fun _ => findAttr s k) := by
  cases ov with
  | none => simp [setOptAttr, Option.orElse]
  | some v => simp [setOptAttr, Option.orElse, findAttr_setAttr_self]

theorem findAttr_setOptAttr_ne (s : Span) (k k' : String) (ov : Option AttrValue)
    (h : k' ≠ k) : findAttr (setOptAttr s k ov) k' = findAttr s k' := by
  cases ov with
  | none => rfl
  | some v => exact findAttr_setAttr_ne _ _ _ _ h

/-- The three `hikari.cost.*` attributes of the span produced by the shared
provider attribute block are exactly the non-null components of the
computed `CostResult`, layered over whatever the base span already held. -/
theorem wrapperAttrStep_cost_attrs (providerName : String)
    (pricing : PricingModel) (pid stg : Option String) (sn : String)
    (tIn tOut : Option ℚ) (mdl : String) (s : Span) :
    findAttr (wrapperAttrStep providerName pricing pid stg sn tIn tOut mdl s)
        COST_INPUT =
      Option.orElse
        ((pricing.computeCost providerName mdl tIn tOut).inputCost.map AttrValue.num)
        (fun _ => findAttr s COST_INPUT) ∧
    findAttr (wrapperAttrStep providerName pricing pid stg sn tIn tOut mdl s)
        COST_OUTPUT =
      Option.orElse
        ((pricing.computeCost providerName mdl tIn tOut).outputCost.map AttrValue.num)
        (fun _ => findAttr s COST_OUTPUT) ∧
    findAttr (wrapperAttrStep providerName pricing pid stg sn tIn tOut mdl s)
        COST_TOTAL =
      Option.orElse
        ((pricing.computeCost providerName mdl tIn tOut).totalCost.map AttrValue.num)
        (fun _ => findAttr s COST_TOTAL) := by
  refine ⟨?_, ?_, ?_⟩
  · simp only [wrapperAttrStep]
    rw [findAttr_setOptAttr_ne _ _ _ _ (by decide), findAttr_setOptAttr_ne _ _ _ _ (by decide),
      findAttr_setOptAttr_self, findAttr_setOptAttr_ne _ _ _ _ (by decide),
      findAttr_setOptAttr_ne _ _ _ _ (by decide), findAttr_setAttr_ne _ _ _ _ (by decide),
      findAttr_setAttr_ne _ _ _ _ (by decide), findAttr_setAttr_ne _ _ _ _ (by decide),
      findAttr_setOptAttr_ne _ _ _ _ (by decide)]
  · simp only [wrapperAttrStep]
    rw [findAttr_setOptAttr_ne _ _ _ _ (by decide), findAttr_setOptAttr_self,
      findAttr_setOptAttr_ne _ _ _ _ (by decide), findAttr_setOptAttr_ne _ _ _ _ (by decide),
      findAttr_setOptAttr_ne _ _ _ _ (by decide), findAttr_setAttr_ne _ _ _ _ (by decide),
      findAttr_setAttr_ne _ _ _ _ (by decide), findAttr_setAttr_ne _ _ _ _ (by decide),
      findAttr_setOptAttr_ne _ _ _ _ (by decide)]
  · simp only [wrapperAttrStep]
    rw [findAttr_setOptAttr_self, findAttr_setOptAttr_ne _ _ _ _ (by decide),
      findAttr_setOptAttr_ne _ _ _ _ (by decide), findAttr_setOptAttr_ne _ _ _ _ (by decide),
      findAttr_setOptAttr_ne _ _ _ _ (by decide), findAttr_setAttr_ne _ _ _ _ (by decide),
      findAttr_setAttr_ne _ _ _ _ (by decide), findAttr_setAttr_ne _ _ _ _ (by decide),
      findAttr_setOptAttr_ne _ _ _ _ (by decide)]

/-! ## Claim theorems -/

/-- C1: for every provider, model and token counts, the `CostResult` of
`PricingModel.computeCost` has a null `totalCost` exactly when its
`inputCost` or its `outputCost` is null (in particular whenever the model
is absent from the table or either token count is null). -/
theorem computeCost_totalCost_none_iff (pm : PricingModel)
    (provider model : String) (inputTokens outputTokens : Option ℚ) :
    (pm.computeCost provider model inputTokens outputTokens).totalCost = none ↔
      ((pm.computeCost provider model inputTokens outputTokens).inputCost = none ∨
        (pm.computeCost provider model inputTokens outputTokens).outputCost = none) := by
  unfold PricingModel.computeCost
  cases pm.get provider model <;> cases inputTokens <;> cases outputTokens <;>
    simp [componentCost, totalOf]

/-- C3: when the model is in the pricing table and both token counts are
non-null, `computeCost` returns non-null input and output costs and a total
cost equal to their exact sum (hence within the 1e-9 absolute tolerance the
spec allows). -/
theorem computeCost_known_model_sum (pm : PricingModel)
    (provider model : String) (pr : ModelPricing) (tIn tOut : ℚ)
    (h : pm.get provider model = some pr) :
    ∃ ic oc t : ℚ,
      (pm.computeCost provider model (some tIn) (some tOut)).inputCost = some ic ∧
      (pm.computeCost provider model (some tIn) (some tOut)).outputCost = some oc ∧
      (pm.computeCost provider model (some tIn) (some tOut)).totalCost = some t ∧
      t = ic + oc ∧ |t - (ic + oc)| ≤ (1e-9 : ℚ) := by
  refine ⟨pr.inputCostPerToken * tIn, pr.outputCostPerToken * tOut,
    pr.inputCostPerToken * tIn + pr.outputCostPerToken * tOut, ?_, ?_, ?_, rfl, ?_⟩
  · simp [PricingModel.computeCost, componentCost, h]
  · simp [PricingModel.computeCost, componentCost, h]
  · simp [PricingModel.computeCost, componentCost, totalOf, h]
  · rw [sub_self, abs_zero]
    norm_num

/-- Witness for C3 at the bundled `openai/gpt-4o` entry with 100 input and
50 output tokens. -/
theorem computeCost_known_model_sum_witness :
    (mkPricingModel []).get "openai" "gpt-4o" = some ⟨0.0000025, 0.00001⟩ ∧
    ∃ ic oc t : ℚ,
      ((mkPricingModel []).computeCost "openai" "gpt-4o" (some 100) (some 50)).inputCost = some ic ∧
      ((mkPricingModel []).computeCost "openai" "gpt-4o" (some 100) (some 50)).outputCost = some oc ∧
      ((mkPricingModel []).computeCost "openai" "gpt-4o" (some 100) (some 50)).totalCost = some t ∧
      t = ic + oc ∧ |t - (ic + oc)| ≤ (1e-9 : ℚ) :=
  ⟨rfl,
    computeCost_known_model_sum (mkPricingModel []) "openai" "gpt-4o"
      ⟨0.0000025, 0.00001⟩ 100 50 rfl⟩

/-- C9: a `PricingModel` built from an overrides record answers `get` with
the override binding when the key is overridden, with the bundled default
binding when only the defaults contain the key, and with null when neither
does (one `orElse` equation); and after `update` on any model, `get` for
the updated `{provider}/{model}` key returns exactly the new pricing. -/
theorem pricingModel_get_precedence_update
    (O : List (String × ModelPricing)) (hnd : (O.map Prod.fst).Nodup)
    (provider model : String) (m : PricingModel) (p mdl : String) (i o : ℚ) :
    (mkPricingModel O).get provider model =
      (lookupKey O (provider ++ "/" ++ model)).orElse
        (fun _ => lookupKey DEFAULT_PRICING (provider ++ "/" ++ model)) ∧
    (m.update (p ++ "/" ++ mdl) i o).get p mdl = some ⟨i, o⟩ := by
  constructor
  · unfold mkPricingModel PricingModel.get
    rw [lookupKey_setEntries, lookupKey_setEntries,
      lookupKey_reverse_of_nodup hnd,
      lookupKey_reverse_of_nodup default_pricing_keys_nodup]
    cases lookupKey O (provider ++ "/" ++ model) with
    | none =>
        cases lookupKey DEFAULT_PRICING (provider ++ "/" ++ model) with
        | none => simp [Option.orElse, lookupKey]
        | some v => simp [Option.orElse, lookupKey]
    | some v => simp [Option.orElse]
  · unfold PricingModel.update PricingModel.get
    exact lookupKey_mapSet_self _ _ _

/-- Witness for C9: one override entry shadowing the bundled `openai/gpt-4o`
default, a fresh key, and a runtime update. -/
theorem pricingModel_get_precedence_update_witness :
    ((([("openai/gpt-4o", (⟨1, 2⟩ : ModelPricing))].map Prod.fst).Nodup) ∧
      (mkPricingModel [("openai/gpt-4o", ⟨1, 2⟩)]).get "openai" "gpt-4o" =
        (lookupKey [("openai/gpt-4o", (⟨1, 2⟩ : ModelPricing))] ("openai" ++ "/" ++ "gpt-4o")).orElse
          (fun _ => lookupKey DEFAULT_PRICING ("openai" ++ "/" ++ "gpt-4o")) ∧
      ((mkPricingModel []).update ("acme" ++ "/" ++ "m1") 3 4).get "acme" "m1" = some ⟨3, 4⟩) :=
  ⟨List.nodup_singleton _,
    (pricingModel_get_precedence_update [("openai/gpt-4o", ⟨1, 2⟩)] (List.nodup_singleton _)
      "openai" "gpt-4o" (mkPricingModel []) "acme" "m1" 3 4).1,
    (pricingModel_get_precedence_update [("openai/gpt-4o", ⟨1, 2⟩)] (List.nodup_singleton _)
      "openai" "gpt-4o" (mkPricingModel []) "acme" "m1" 3 4).2⟩

/-- C2: the wrapped method propagates the outcome of the original client
method unchanged — the same response on resolution (even when the inner
attribute step throws, which the generic skeleton quantifies over) and the
same error on rejection — for the generic skeleton and for each of the
openai, anthropic and google wrappers. -/
theorem wrapper_preserves_outcome {ε ρ : Type}
    (attrStep : ρ → Span → Span × Bool) (spanName : String)
    (original : Except ε ρ) (pm : PricingModel)
    (pid stg kwm : Option String) (modelName : String)
    (oOrig : Except ε OpenAIResponse) (aOrig : Except ε AnthropicResponse)
    (gOrig : Except ε GoogleResponse) :
    (wrappedCall attrStep spanName original).1 = original ∧
    (openaiWrapper pm pid stg kwm oOrig).1 = oOrig ∧
    (anthropicWrapper pm pid stg kwm aOrig).1 = aOrig ∧
    (googleWrapper pm pid stg modelName gOrig).1 = gOrig := by
  refine ⟨?_, ?_, ?_, ?_⟩
  · cases original with
    | error e => rfl
    | ok r => simp only [wrappedCall]
  · cases oOrig <;> rfl
  · cases aOrig <;> rfl
  · cases gOrig <;> rfl

/-- C4: on a successful call, each `hikari.cost.*` attribute on the emitted
span equals the corresponding component of the computed `CostResult`: set
to exactly that value when it is non-null, absent (never a zero, NaN or -1
sentinel) when it is null. Stated for the openai and google wrappers the
claim cites. -/
theorem wrapper_cost_attrs_match_computed {ε : Type} (pm : PricingModel)
    (pid stg kwm : Option String) (r : OpenAIResponse)
    (modelName : String) (g : GoogleResponse) :
    findAttr (@openaiWrapper ε pm pid stg kwm (Except.ok r)).2 COST_INPUT =
      ((pm.computeCost "openai" (openaiExtractModel r kwm)
        (openaiExtractTokens r).1 (openaiExtractTokens r).2).inputCost).map AttrValue.num ∧
    findAttr (@openaiWrapper ε pm pid stg kwm (Except.ok r)).2 COST_OUTPUT =
      ((pm.computeCost "openai" (openaiExtractModel r kwm)
        (openaiExtractTokens r).1 (openaiExtractTokens r).2).outputCost).map AttrValue.num ∧
    findAttr (@openaiWrapper ε pm pid stg kwm (Except.ok r)).2 COST_TOTAL =
      ((pm.computeCost "openai" (openaiExtractModel r kwm)
        (openaiExtractTokens r).1 (openaiExtractTokens r).2).totalCost).map AttrValue.num ∧
    findAttr (@googleWrapper ε pm pid stg modelName (Except.ok g)).2 COST_INPUT =
      ((pm.computeCost "google" modelName
        (googleExtractTokens g).1 (googleExtractTokens g).2).inputCost).map AttrValue.num ∧
    findAttr (@googleWrapper ε pm pid stg modelName (Except.ok g)).2 COST_OUTPUT =
      ((pm.computeCost "google" modelName
        (googleExtractTokens g).1 (googleExtractTokens g).2).outputCost).map AttrValue.num ∧
    findAttr (@googleWrapper ε pm pid stg modelName (Except.ok g)).2 COST_TOTAL =
      ((pm.computeCost "google" modelName
        (googleExtractTokens g).1 (googleExtractTokens g).2).totalCost).map AttrValue.num := by
  have base : ∀ (sn : String) (k : String), findAttr ⟨sn, [], false⟩ k = none := by
    intro sn k; rfl
  have ended : ∀ (s : Span) (b : Bool) (k : String),
      findAttr { s with ended := b } k = findAttr s k := by
    intro s b k; rfl
  refine ⟨?_, ?_, ?_, ?_, ?_, ?_⟩
  · simp only [openaiWrapper, wrappedCall, ended]
    rw [(wrapperAttrStep_cost_attrs _ _ _ _ _ _ _ _ _).1, base]
    cases (pm.computeCost "openai" (openaiExtractModel r kwm)
      (openaiExtractTokens r).1 (openaiExtractTokens r).2).inputCost <;>
      simp [Option.orElse]
  · simp only [openaiWrapper, wrappedCall, ended]
    rw [(wrapperAttrStep_cost_attrs _ _ _ _ _ _ _ _ _).2.1, base]
    cases (pm.computeCost "openai" (openaiExtractModel r kwm)
      (openaiExtractTokens r).1 (openaiExtractTokens r).2).outputCost <;>
      simp [Option.orElse]
  · simp only [openaiWrapper, wrappedCall, ended]
    rw [(wrapperAttrStep_cost_attrs _ _ _ _ _ _ _ _ _).2.2, base]
    cases (pm.computeCost "openai" (openaiExtractModel r kwm)
      (openaiExtractTokens r).1 (openaiExtractTokens r).2).totalCost <;>
      simp [Option.orElse]
  · simp only [googleWrapper, wrappedCall, ended]
    rw [(wrapperAttrStep_cost_attrs _ _ _ _ _ _ _ _ _).1, base]
    cases (pm.computeCost "google" modelName
      (googleExtractTokens g).1 (googleExtractTokens g).2).inputCost <;>
      simp [Option.orElse]
  · simp only [googleWrapper, wrappedCall, ended]
    rw [(wrapperAttrStep_cost_attrs _ _ _ _ _ _ _ _ _).2.1, base]
    cases (pm.computeCost "google" modelName
      (googleExtractTokens g).1 (googleExtractTokens g).2).outputCost <;>
      simp [Option.orElse]
  · simp only [googleWrapper, wrappedCall, ended]
    rw [(wrapperAttrStep_cost_attrs _ _ _ _ _ _ _ _ _).2.2, base]
    cases (pm.computeCost "google" modelName
      (googleExtractTokens g).1 (googleExtractTokens g).2).totalCost <;>
      simp [Option.orElse]

/-- C10: when the underlying provider method rejects, the wrapper still
ends the span (so it is exported) with no `hikari.*` attributes set — in
particular the required `hikari.stage`, `hikari.model` and
`hikari.provider` are absent — and rethrows the original error. -/
theorem wrapper_error_span_no_attrs {ε : Type} (e : ε) (pm : PricingModel)
    (pid stg kwm : Option String) (modelName : String) :
    openaiWrapper pm pid stg kwm (Except.error e) =
      (Except.error e, ⟨"openai.chat.completions.create", [], true⟩) ∧
    anthropicWrapper pm pid stg kwm (Except.error e) =
      (Except.error e, ⟨"anthropic.messages.create", [], true⟩) ∧
    googleWrapper pm pid stg modelName (Except.error e) =
      (Except.error e, ⟨"google.generativeai.generate_content", [], true⟩) ∧
    findAttr (openaiWrapper pm pid stg kwm (Except.error e)).2 STAGE = none ∧
    findAttr (openaiWrapper pm pid stg kwm (Except.error e)).2 MODEL = none ∧
    findAttr (openaiWrapper pm pid stg kwm (Except.error e)).2 PROVIDER = none ∧
    findAttr (anthropicWrapper pm pid stg kwm (Except.error e)).2 STAGE = none ∧
    findAttr (anthropicWrapper pm pid stg kwm (Except.error e)).2 MODEL = none ∧
    findAttr (anthropicWrapper pm pid stg kwm (Except.error e)).2 PROVIDER = none :=
  ⟨rfl, rfl, rfl, rfl, rfl, rfl, rfl, rfl, rfl⟩

/-! ## Exporter queue lemmas -/

/-- Sequentially enqueueing with drop-oldest keeps exactly the most recent
elements: starting from a queue within capacity, the result is the suffix
of the concatenation `queue ++ spans` that fits. -/
theorem foldl_enqueue_drop (max : ℕ) (hmax : 1 ≤ max)
    (spans : List ReadableSpan) :
    ∀ q : List ReadableSpan, q.length ≤ max →
      spans.foldl (enqueueSpan max) q =
        (q ++ spans).drop (q.length + spans.length - max) := by
  induction spans with
  | nil =>
      intro q hq
      simp [Nat.sub_eq_zero_of_le hq]
  | cons sp spans ih =>
      intro q hq
      rw [List.foldl_cons]
      by_cases hfull : max ≤ q.length
      · have hlen : q.length = max := le_antisymm hq hfull
        cases q with
        | nil =>
            simp only [List.length_nil] at hlen
            omega
        | cons a t =>
            have henq : enqueueSpan max (a :: t) sp = t ++ [sp] := by
              unfold enqueueSpan
              rw [if_pos hfull]
              rfl
            rw [henq]
            have ht : t.length + 1 = max := by simpa using hlen
            have hlen2 : (t ++ [sp]).length ≤ max := by simp; omega
            rw [ih _ hlen2]
            have e1 : (t ++ [sp]) ++ spans = t ++ sp :: spans := by simp
            have e2 : (a :: t) ++ sp :: spans = a :: (t ++ sp :: spans) := by simp
            have i1 : (t ++ [sp]).length + spans.length - max = spans.length := by
              simp; omega
            have i2 : (a :: t).length + (sp :: spans).length - max =
                spans.length + 1 := by
              simp; omega
            rw [e1, e2, i1, i2, List.drop_succ_cons]
      · have henq : enqueueSpan max q sp = q ++ [sp] := by
          unfold enqueueSpan
          rw [if_neg hfull]
        rw [henq]
        have hlt : q.length < max := lt_of_not_le hfull
        have hlen2 : (q ++ [sp]).length ≤ max := by simp; omega
        rw [ih _ hlen2]
        have e1 : (q ++ [sp]) ++ spans = q ++ sp :: spans := by simp
        have i1 : (q ++ [sp]).length + spans.length - max =
            q.length + (sp :: spans).length - max := by simp; omega
        rw [e1, i1]

/-- Concrete spans for witnesses and counterexamples. -/
def wSpanA : ReadableSpan := ⟨"t1", "sA", "n", (0, 0), (0, 0), []⟩

def wSpanB : ReadableSpan := ⟨"t1", "sB", "n", (0, 0), (0, 0), []⟩

def wSpanC : ReadableSpan := ⟨"t1", "sC", "n", (0, 0), (0, 0), []⟩

/-- A full exporter at capacity 1 (for the C5 counterexample and witness). -/
def exporterCap1 : ExporterState :=
  ⟨"http://localhost:8000", 1, 100, 5000, [wSpanA], false⟩

/-- An exporter at capacity 2 holding one span, batch size 1 (for the C6
witness). -/
def exporterCap2 : ExporterState :=
  ⟨"http://localhost:8000", 2, 1, 5000, [wSpanA], false⟩

/-- C5 counterexample: the claim asserts that an overflowing enqueue
increments an overflow counter of the exporter. `ExporterState` carries
every field of the `HikariSpanExporter` class (endpoint, maxQueueSize,
batchSize, flushIntervalMs, queue, shutdown flag; the timer handle holds no
data). At this concrete overflowing `export` call the entire post-state is
`{ exporterCap1 with queue := [wSpanB] }`: every field other than the queue
— in particular every numeric field — is unchanged, so no counter of any
kind is incremented; the exporter does not maintain an overflow counter
(the spec sentence about one describes the collector write buffer, which
is a different component). -/
theorem export_mutates_only_queue :
    exportSpans exporterCap1 [wSpanB] =
      ({ exporterCap1 with queue := [wSpanB] }, ExportResultCode.SUCCESS) := rfl

/-- C5 (amended): for every `export` call on an exporter whose queue is
within a positive capacity, each incoming span is appended with the oldest
entry discarded at capacity, the call reports success to the producer
without throwing, and the queue length stays at most `maxQueueSize` (so
usage never exceeds 1.0). (The overflow-counter clause of the original
claim is dropped: no such counter exists on the exporter.) -/
theorem export_success_and_bounded (s : ExporterState)
    (spans : List ReadableSpan) (h1 : s.queue.length ≤ s.maxQueueSize)
    (h2 : 1 ≤ s.maxQueueSize) :
    (exportSpans s spans).2 = ExportResultCode.SUCCESS ∧
    (exportSpans s spans).1.queue.length ≤ s.maxQueueSize ∧
    ((exportSpans s spans).1.queue.length : ℚ) / (s.maxQueueSize : ℚ) ≤ 1 := by
  have hb : (exportSpans s spans).1.queue.length ≤ s.maxQueueSize := by
    unfold exportSpans
    by_cases hsd : s.shutdownFlag
    · simpa [hsd] using h1
    · simp only [hsd, Bool.false_eq_true, if_false]
      rw [foldl_enqueue_drop s.maxQueueSize h2 spans s.queue h1,
        List.length_drop, List.length_append]
      omega
  refine ⟨?_, hb, ?_⟩
  · unfold exportSpans
    by_cases hsd : s.shutdownFlag <;> simp [hsd]
  · have hpos : (0 : ℚ) < (s.maxQueueSize : ℚ) := by
      have : 0 < s.maxQueueSize := h2
      exact_mod_cast this
    rw [div_le_one hpos]
    exact_mod_cast hb

/-- Witness for the amended C5 at a concrete overflowing call. -/
theorem export_success_and_bounded_witness :
    exporterCap1.queue.length ≤ exporterCap1.maxQueueSize ∧
    1 ≤ exporterCap1.maxQueueSize ∧
    ((exportSpans exporterCap1 [wSpanB]).2 = ExportResultCode.SUCCESS ∧
      (exportSpans exporterCap1 [wSpanB]).1.queue.length ≤ exporterCap1.maxQueueSize ∧
      ((exportSpans exporterCap1 [wSpanB]).1.queue.length : ℚ) /
        (exporterCap1.maxQueueSize : ℚ) ≤ 1) :=
  ⟨by decide, by decide,
    export_success_and_bounded exporterCap1 [wSpanB] (by decide) (by decide)⟩

/-- C6: the exporter queue is FIFO among retained elements — `export`
appends in arrival order and overflow removes only from the front, so the
retained queue is a contiguous suffix of `queue ++ spans`; `flushBatch`
removes exactly the first `batchSize` spans and serializes that prefix in
order into the OTLP payload. -/
theorem export_fifo_flush_front (s : ExporterState)
    (spans : List ReadableSpan) (h1 : s.queue.length ≤ s.maxQueueSize)
    (h2 : 1 ≤ s.maxQueueSize) (h3 : s.shutdownFlag = false) :
    (exportSpans s spans).1.queue =
      (s.queue ++ spans).drop (s.queue.length + spans.length - s.maxQueueSize) ∧
    (flushBatch s).1.queue = s.queue.drop s.batchSize ∧
    (flushBatch s).2 = (if (s.queue.take s.batchSize).isEmpty then none
      else some ⟨[⟨[⟨(s.queue.take s.batchSize).map spanToOtlp⟩]⟩]⟩) := by
  refine ⟨?_, ?_, ?_⟩
  · simp only [exportSpans, h3, Bool.false_eq_true, if_false]
    exact foldl_enqueue_drop s.maxQueueSize h2 spans s.queue h1
  · unfold flushBatch
    by_cases hq : s.queue.isEmpty
    · have hnil : s.queue = [] := List.isEmpty_iff.mp hq
      simp [hq, hnil]
    · by_cases hb : (s.queue.take s.batchSize).isEmpty <;> simp [hq, hb]
  · unfold flushBatch
    by_cases hq : s.queue.isEmpty
    · have hnil : s.queue = [] := List.isEmpty_iff.mp hq
      simp [hq, hnil]
    · by_cases hb : (s.queue.take s.batchSize).isEmpty <;> simp [hq, hb]

/-- Witness for C6: capacity 2, one resident span, two arrivals (the oldest
is dropped), then a flush of batch size 1. -/
theorem export_fifo_flush_front_witness :
    exporterCap2.queue.length ≤ exporterCap2.maxQueueSize ∧
    1 ≤ exporterCap2.maxQueueSize ∧
    exporterCap2.shutdownFlag = false ∧
    ((exportSpans exporterCap2 [wSpanB, wSpanC]).1.queue =
      (exporterCap2.queue ++ [wSpanB, wSpanC]).drop
        (exporterCap2.queue.length + [wSpanB, wSpanC].length - exporterCap2.maxQueueSize) ∧
      (flushBatch exporterCap2).1.queue = exporterCap2.queue.drop exporterCap2.batchSize ∧
      (flushBatch exporterCap2).2 =
        (if (exporterCap2.queue.take exporterCap2.batchSize).isEmpty then none
          else some ⟨[⟨[⟨(exporterCap2.queue.take exporterCap2.batchSize).map spanToOtlp⟩]⟩]⟩)) :=
  ⟨by decide, by decide, rfl,
    export_fifo_flush_front exporterCap2 [wSpanB, wSpanC] (by decide) (by decide) rfl⟩

/-! ## OTLP value round trip -/

/-- Decoding an encoded attribute value recovers it exactly, for all three
value kinds and both numeric encodings. -/
theorem decode_encode_attrValue (v : AttrValue) :
    decodeAttrValue (encodeAttrValue v) = some v := by
  cases v with
  | str s => rfl
  | bool b => rfl
  | num q =>
      by_cases h : q.den = 1
      · by_cases hn : q.num < 0
        · have hd : decide (q.num < 0) = true := decide_eq_true hn
          have habs : ((q.num.natAbs : ℤ)) = -q.num := by
            rw [Int.natCast_natAbs, abs_of_neg hn]
          simp only [encodeAttrValue, h, if_true, decodeAttrValue, hd,
            Nat.ofDigits_digits, habs, if_true, neg_neg, Option.some.injEq,
            AttrValue.num.injEq]
          exact Rat.coe_int_num_of_den_eq_one h
        · have hd : decide (q.num < 0) = false := decide_eq_false hn
          have habs : ((q.num.natAbs : ℤ)) = q.num := by
            rw [Int.natCast_natAbs, abs_of_nonneg (not_lt.mp hn)]
          simp only [encodeAttrValue, h, if_true, decodeAttrValue, hd,
            Nat.ofDigits_digits, habs, Bool.false_eq_true, if_false,
            Option.some.injEq, AttrValue.num.injEq]
          exact Rat.coe_int_num_of_den_eq_one h
      · simp [encodeAttrValue, h, decodeAttrValue]

/-- C8: `spanToOtlp` encodes integer-valued numbers as `intValue` carrying
the decimal string (modelled by sign and base-10 digits), other numbers as
`doubleValue`, strings as `stringValue` and booleans as `boolValue`; a
consumer that accepts integers as decimal strings and integer-valued
doubles (spec-modelled `decodeAttrValue`) recovers every attribute of every
serialized span exactly. -/
theorem spanToOtlp_value_encoding_roundtrip (sp : ReadableSpan) (q : ℚ)
    (s : String) (b : Bool) :
    ((spanToOtlp sp).attributes).map (fun kv => (kv.1, decodeAttrValue kv.2)) =
      sp.attributes.map (fun kv => (kv.1, some kv.2)) ∧
    encodeAttrValue (AttrValue.num q) =
      (if q.den = 1 then
        OtlpValue.intValue (decide (q.num < 0)) (Nat.digits 10 q.num.natAbs)
       else OtlpValue.doubleValue q) ∧
    encodeAttrValue (AttrValue.str s) = OtlpValue.stringValue s ∧
    encodeAttrValue (AttrValue.bool b) = OtlpValue.boolValue b ∧
    decodeAttrValue (encodeAttrValue (AttrValue.num q)) = some (AttrValue.num q) := by
  refine ⟨?_, rfl, rfl, rfl, decode_encode_attrValue _⟩
  simp only [spanToOtlp, List.map_map]
  apply List.map_congr_left
  intro a _
  simp [Function.comp, decode_encode_attrValue]

/-! ## Continuous aggregate lemmas -/

/-- The `WHERE cost_total IS NOT NULL` clause runs before grouping: the
view output over any row set equals the output over its non-null-cost
subset, so a null-cost row contributes to no aggregate column. -/
theorem cost_view_null_insensitive (width : ℤ) (rows : List SpanRow) :
    cost_view width rows =
      cost_view width (rows.filter (fun r => r.cost_total.isSome)) := by
  unfold cost_view
  rw [List.filter_filter]
  simp [Bool.and_self]

/-- The view emits one output row per distinct
`(bucket, pipeline_id, stage, model, provider)` key among the
non-null-cost rows. -/
theorem cost_view_keys (width : ℤ) (rows : List SpanRow) :
    (cost_view width rows).map AggRow.key =
      ((rows.filter (fun r => r.cost_total.isSome)).map (rowKey width)).dedup := by
  simp only [cost_view]
  rw [List.map_map]
  have hmap : ∀ (ks : List AggKey) (f : AggKey → AggRow),
      (∀ k, (f k).key = k) → ks.map (AggRow.key ∘ f) = ks := by
    intro ks f hf
    induction ks with
    | nil => rfl
    | cons a t ih => simp [Function.comp, hf, ih]
  exact hmap _ _ (fun k => rfl)

/-- The `COUNT(*)` column of each output row counts exactly the non-null-cost rows of
its group. -/
theorem cost_view_span_count (width : ℤ) (rows : List SpanRow) :
    (cost_view width rows).map AggRow.span_count =
      ((cost_view width rows).map AggRow.key).map
        (fun k => (rows.filter
          (fun r => r.cost_total.isSome && decide (rowKey width r = k))).length) := by
  rw [cost_view_keys]
  simp only [cost_view]
  rw [List.map_map]
  apply List.map_congr_left
  intro k _
  simp only [Function.comp]
  have hfun : (fun a => decide (rowKey width a = k) && a.cost_total.isSome) =
      (fun r : SpanRow => r.cost_total.isSome && decide (rowKey width r = k)) := by
    funext r
    exact Bool.and_comm _ _
  rw [List.filter_filter, hfun]

/-- C7: each of `cost_hourly`, `cost_daily`, `cost_weekly` groups exactly
by `(bucket, pipeline_id, stage, model, provider)` and aggregates over only
the rows with non-null `cost_total`: the view output is insensitive to
null-cost rows, its keys are the distinct group keys of the non-null-cost
rows, and each `span_count` (`COUNT(*)`) counts only non-null-cost rows of
its group. -/
theorem cost_aggregates_exclude_null (rows : List SpanRow) :
    (cost_hourly rows = cost_hourly (rows.filter (fun r => r.cost_total.isSome)) ∧
      (cost_hourly rows).map AggRow.key =
        ((rows.filter (fun r => r.cost_total.isSome)).map (rowKey 3600)).dedup ∧
      (cost_hourly rows).map AggRow.span_count =
        ((cost_hourly rows).map AggRow.key).map
          (fun k => (rows.filter
            (fun r => r.cost_total.isSome && decide (rowKey 3600 r = k))).length)) ∧
    (cost_daily rows = cost_daily (rows.filter (fun r => r.cost_total.isSome)) ∧
      (cost_daily rows).map AggRow.key =
        ((rows.filter (fun r => r.cost_total.isSome)).map (rowKey 86400)).dedup ∧
      (cost_daily rows).map AggRow.span_count =
        ((cost_daily rows).map AggRow.key).map
          (fun k => (rows.filter
            (fun r => r.cost_total.isSome && decide (rowKey 86400 r = k))).length)) ∧
    (cost_weekly rows = cost_weekly (rows.filter (fun r => r.cost_total.isSome)) ∧
      (cost_weekly rows).map AggRow.key =
        ((rows.filter (fun r => r.cost_total.isSome)).map (rowKey 604800)).dedup ∧
      (cost_weekly rows).map AggRow.span_count =
        ((cost_weekly rows).map AggRow.key).map
          (fun k => (rows.filter
            (fun r => r.cost_total.isSome && decide (rowKey 604800 r = k))).length)) := by
  unfold cost_hourly cost_daily cost_weekly
  exact ⟨⟨cost_view_null_insensitive 3600 rows, cost_view_keys 3600 rows,
      cost_view_span_count 3600 rows⟩,
    ⟨cost_view_null_insensitive 86400 rows, cost_view_keys 86400 rows,
      cost_view_span_count 86400 rows⟩,
    ⟨cost_view_null_insensitive 604800 rows, cost_view_keys 604800 rows,
      cost_view_span_count 604800 rows⟩⟩

end Hikari
